import Mathlib

/-!
Verification development for the `ralph_status.py` workspace diagnostic tool.

The Python source is shallowly embedded as pure Lean functions over an explicit
environment value:

* the filesystem is a finite list of entries (absolute paths with a dir/file kind);
* every external shell command is identified by a `Cmd` value and the environment
  maps it to the OS-level outcome of `subprocess.run` (normal completion with an
  exit code and captured stdout, a timeout, or a raised OS-level exception);
* the Python `open` + `json.load` pipeline on a progress file is modelled by the
  environment field `fileJson` (absent file / present-but-unparsable / parsed value),
  and `open().readlines()` on the session log by `fileLines`;
* Python exceptions that the source does not catch (`IndexError` from `.split()[0]`,
  `AttributeError` from `.get` on a non-dict, `TypeError` from `len`) are modelled
  with `Except String`;
* each probe additionally returns the list of shell commands it executed, so that
  statements about how often a probe ran are expressible.

JSON numbers are modelled as integers (no claim concerns numeric fields) and the
Python `repr` used by f-string interpolation of containers is reproduced
structurally.
-/

deriving instance DecidableEq for Except

/-- A filesystem path, as the list of components from the root. -/
abbrev FPath := List String

/-- Kind of a directory entry. -/
inductive EntryKind where
  | dir
  | file

deriving DecidableEq, Repr

/-- A finite snapshot of the filesystem: the list of existing entries. -/
structure FS where
  entries : List (FPath × EntryKind)

deriving DecidableEq

/-- All existing paths. -/
def FS.paths (fs : FS) : List FPath := fs.entries.map Prod.fst

/-- Python `p.is_dir()`: the path exists as a directory. -/
def FS.IsDir (fs : FS) (p : FPath) : Prop := (p, EntryKind.dir) ∈ fs.entries

instance (fs : FS) (p : FPath) : Decidable (fs.IsDir p) :=
  inferInstanceAs (Decidable ((p, EntryKind.dir) ∈ fs.entries))

/-- Python `p.exists()`: the path exists, as a directory or as a plain file. -/
def FS.ExistsP (fs : FS) (p : FPath) : Prop :=
  (p, EntryKind.dir) ∈ fs.entries ∨ (p, EntryKind.file) ∈ fs.entries

instance (fs : FS) (p : FPath) : Decidable (fs.ExistsP p) :=
  inferInstanceAs (Decidable (_ ∨ _))

/-- Python `p.iterdir()`: the existing immediate children of `e`, in entry order. -/
def FS.childPaths (fs : FS) (e : FPath) : List FPath :=
  fs.paths.filter (fun q => q.dropLast == e && !q.isEmpty)

/-- Python `p.name`: the final path component. -/
def lastName (p : FPath) : String := p.getLast?.getD ""

/-- The OS-level outcome of one `subprocess.run(cmd, shell=True, capture_output=True,
text=True, timeout=5)` call: normal completion (any exit code, `check` is not set, so
a non-zero exit does not raise), expiry of the 5 second timeout, or a Python-level
exception (e.g. an OS error). -/
inductive CmdOutcome where
  | completed (exitCode : Int) (stdout : String)
  | timedOut
  | excep (message : String)

deriving DecidableEq, Repr

/-- The shell commands the tool issues, identified by their role and, where the
command string embeds one, the working directory or target path. -/
inductive Cmd where
  | gitBranch (cwd : FPath)
  | gitLog (cwd : FPath)
  | gitStatus (cwd : FPath)
  | du (target : FPath)
  | dockerPs
  | whichTimeout

deriving DecidableEq, Repr

/-- Python `str.strip()` (char-list implementation: drop whitespace at both ends). -/
def pyStrip (s : String) : String :=
  String.mk ((s.data.dropWhile Char.isWhitespace).reverse.dropWhile Char.isWhitespace).reverse

/-- Python `str.rstrip()`: drop trailing whitespace. -/
def pyRStrip (s : String) : String :=
  String.mk (s.data.reverse.dropWhile Char.isWhitespace).reverse

/-- Python `str.startswith(pre)`. -/
def pyStartsWith (s pre : String) : Bool := pre.data.isPrefixOf s.data

/-- Worker for `pySplit`: split on whitespace runs, dropping empty tokens. -/
def pySplitAux : List Char → List Char → List String
  | [], acc => if acc.isEmpty then [] else [String.mk acc.reverse]
  | c :: cs, acc =>
    if c.isWhitespace then
      if acc.isEmpty then pySplitAux cs [] else String.mk acc.reverse :: pySplitAux cs []
    else pySplitAux cs (c :: acc)

/-- Python `s.split()`: split on whitespace, dropping empty tokens (so that
`"".split()` is the empty list). -/
def pySplit (s : String) : List String := pySplitAux s.data []

/-- Worker for `pySplitNl`. -/
def pySplitNlAux : List Char → List Char → List String
  | [], acc => [String.mk acc.reverse]
  | c :: cs, acc =>
    if c = '\n' then String.mk acc.reverse :: pySplitNlAux cs []
    else pySplitNlAux cs (c :: acc)

/-- Python `s.split('\n')`: split at each newline, keeping empty parts (so the
result is never the empty list). -/
def pySplitNl (s : String) : List String := pySplitNlAux s.data []

/-- Lexicographic comparison of char lists by Unicode code point, as Python
compares strings. -/
def listLeCh : List Char → List Char → Bool
  | [], _ => true
  | _ :: _, [] => false
  | a :: as, b :: bs =>
    if a.toNat < b.toNat then true
    else if b.toNat < a.toNat then false
    else listLeCh as bs

/-- Python string `<=` (code-point lexicographic). -/
def strLeB (a b : String) : Bool := listLeCh a.data b.data

/-- `runCmd` from the source: returns the trimmed stdout on normal completion
(regardless of exit code), the string `"[timeout]"` on `TimeoutExpired`, and
`"[error: <msg>]"` when any other exception is caught. -/
def runCmd : CmdOutcome → String
  | CmdOutcome.completed _ out => pyStrip out
  | CmdOutcome.timedOut => "[timeout]"
  | CmdOutcome.excep msg => "[error: " ++ msg ++ "]"

/-- JSON values as produced by `json.load`; numbers are modelled as integers. -/
inductive JVal where
  | null
  | bool (b : Bool)
  | num (n : Int)
  | str (s : String)
  | arr (elems : List JVal)
  | obj (fields : List (String × JVal))

/-- Python truthiness of a JSON value (`if ralph_status:` etc.). -/
def JVal.truthy : JVal → Bool
  | JVal.null => false
  | JVal.bool b => b
  | JVal.num n => n != 0
  | JVal.str s => s != ""
  | JVal.arr xs => !xs.isEmpty
  | JVal.obj fs => !fs.isEmpty

/-- Python `dict.get(k)` on a parsed JSON object. -/
def objGet : List (String × JVal) → String → Option JVal
  | [], _ => none
  | kv :: rest, k => if kv.1 == k then some kv.2 else objGet rest k

/-- Python `dict.get(k, default)`. -/
def objGetD (fields : List (String × JVal)) (k : String) (d : JVal) : JVal :=
  (objGet fields k).getD d

/-- Python `len` on a JSON value; raises `TypeError` on values without a length. -/
def pyLen : JVal → Except String Nat
  | JVal.arr xs => Except.ok xs.length
  | JVal.str s => Except.ok s.length
  | JVal.obj fs => Except.ok fs.length
  | _ => Except.error "TypeError: object of this type has no len()"

mutual

/-- Python `repr` of a JSON value (structural approximation for containers). -/
def pyRepr : JVal → String
  | JVal.null => "None"
  | JVal.bool b => if b then "True" else "False"
  | JVal.num n => toString n
  | JVal.str s => "\x27" ++ s ++ "\x27"
  | JVal.arr xs => "[" ++ String.intercalate ", " (pyReprList xs) ++ "]"
  | JVal.obj fs => "\x7b" ++ String.intercalate ", " (pyReprFields fs) ++ "\x7d"

/-- `repr` of each element of a JSON array. -/
def pyReprList : List JVal → List String
  | [] => []
  | x :: xs => pyRepr x :: pyReprList xs

/-- `repr` of each `key: value` pair of a JSON object. -/
def pyReprFields : List (String × JVal) → List String
  | [] => []
  | kv :: xs => ("\x27" ++ kv.1 ++ "\x27: " ++ pyRepr kv.2) :: pyReprFields xs

end

/-- Python `str` of a JSON value, as used by f-string interpolation. -/
def pyStr : JVal → String
  | JVal.str s => s
  | v => pyRepr v

/-- Python `l[-n:]`. -/
def lastN {α : Type} (n : Nat) (l : List α) : List α := l.drop (l.length - n)

/-- The ambient environment of one invocation: the filesystem snapshot, the
behaviour of external commands, the content of the structured state files
(`fileJson p`: `none` if the file is absent, `some none` if present but
`open`/`json.load` raises, `some (some v)` if it parses to `v`), the raw lines of
text files (`fileLines`, as by `readlines()`), and the header data `datetime.now()`,
`os.uname().nodename` and the leading token of `sys.version`. -/
structure Env where
  fs : FS
  run : Cmd → CmdOutcome
  fileJson : FPath → Option (Option JVal)
  fileLines : FPath → Option (List String)
  now : String
  host : String
  pyVersion : String

/-- `get_ralph_status` from the source: read `<spec>/.ralph/progress.json`; `None`
when the file is absent or when `open`/`json.load` raises (the bare `except`). -/
def get_ralph_status (env : Env) (d : FPath) : Option JVal :=
  match env.fileJson (d ++ [".ralph", "progress.json"]) with
  | none => none
  | some r => r

/-- `get_session_log` from the source: the last 10 lines of
`<spec>/.ralph/session.log`, or `[]` if absent or unreadable. -/
def get_session_log (env : Env) (d : FPath) : List String :=
  match env.fileLines (d ++ [".ralph", "session.log"]) with
  | none => []
  | some ls => lastN 10 ls

/-- Git data recorded by `get_git_info` when a repository root is found. -/
structure GitData where
  branch : String
  recent_commits : List String
  status : String

deriving DecidableEq, Repr

/-- The `while repo_root != repo_root.parent` ascent of `get_git_info`, phrased on
the reversed component list (the head is the deepest component, so moving to the
parent is taking the tail): stop at the first directory containing `.git`, or at
the filesystem root. -/
def findRepoRootRev (fs : FS) : List String → List String
  | [] => []
  | c :: rest =>
    if fs.ExistsP ((c :: rest).reverse ++ [".git"]) then c :: rest
    else findRepoRootRev fs rest

/-- The directory at which the upward ascent of `get_git_info` stops. -/
def findRepoRoot (fs : FS) (d : FPath) : FPath :=
  (findRepoRootRev fs d.reverse).reverse

/-- `get_git_info` from the source: ascend to a repository root; if the stopping
point contains `.git`, run the three read-only git queries there (the log output is
split on newlines), else return the empty dict (modelled as `none`). The second
component is the list of commands executed. -/
def get_git_info (env : Env) (d : FPath) : Option GitData × List Cmd :=
  let root := findRepoRoot env.fs d
  if env.fs.ExistsP (root ++ [".git"]) then
    (some
      { branch := runCmd (env.run (Cmd.gitBranch root))
        recent_commits := pySplitNl (runCmd (env.run (Cmd.gitLog root)))
        status := runCmd (env.run (Cmd.gitStatus root)) },
     [Cmd.gitBranch root, Cmd.gitLog root, Cmd.gitStatus root])
  else (none, [])

/-- The `du -sh <nm>` step of `get_resource_usage`: `runCmd(...).split()[0]`.
Indexing `[0]` raises `IndexError` when the split of the trimmed output is empty. -/
def duSize (env : Env) (nm : FPath) : Except String (String × List Cmd) :=
  match (pySplit (runCmd (env.run (Cmd.du nm)))).head? with
  | some s => Except.ok (s, [Cmd.du nm])
  | none => Except.error "IndexError: list index out of range"

/-- The `for service_dir in services_dir.iterdir()` loop of `get_resource_usage`. -/
def resourceLoop (env : Env) : List FPath → Except String (List (String × String) × List Cmd)
  | [] => Except.ok ([], [])
  | sd :: rest =>
    if env.fs.IsDir sd then
      if env.fs.ExistsP (sd ++ ["node_modules"]) then do
        let s ← duSize env (sd ++ ["node_modules"])
        let r ← resourceLoop env rest
        Except.ok ((lastName sd, s.1) :: r.1, s.2 ++ r.2)
      else resourceLoop env rest
    else resourceLoop env rest

/-- `get_resource_usage` from the source: inspect `spec.parent.parent / "services"`;
for each child directory owning a `node_modules` entry, record the first token of
the `du -sh` output keyed by the child name. -/
def get_resource_usage (env : Env) (d : FPath) :
    Except String (List (String × String) × List Cmd) :=
  let services := d.dropLast.dropLast ++ ["services"]
  if env.fs.ExistsP services then resourceLoop env (env.fs.childPaths services)
  else Except.ok ([], [])

/-- `check_docker_status` from the source: one `docker ps -a` invocation; the
output is recorded verbatim only when it is non-empty and does not start with
`"["`, otherwise the fixed placeholder is recorded. -/
def check_docker_status (env : Env) : String × List Cmd :=
  let result := runCmd (env.run Cmd.dockerPs)
  (if result != "" && !(pyStartsWith result "[") then result
   else "Docker not available or not running",
   [Cmd.dockerPs])

/-- Availability record of one required executable. -/
structure DepInfo where
  available : Bool
  path : String

deriving DecidableEq, Repr

/-- `check_system_deps` from the source: `which timeout` is executed twice, once
for the availability flag and once for the recorded path. -/
def check_system_deps (env : Env) : DepInfo × List Cmd :=
  ({ available := runCmd (env.run Cmd.whichTimeout) != ""
     path := runCmd (env.run Cmd.whichTimeout) },
   [Cmd.whichTimeout, Cmd.whichTimeout])

/-- Paths under `ws` (strict descendants) whose final component is `name`, as
collected by `workspace.rglob(name)`, in entry order. -/
def rglobMatches (fs : FS) (ws : FPath) (name : String) : List FPath :=
  fs.paths.filter (fun p => ws.isPrefixOf p && p != ws && p.getLast? == some name)

/-- The string `pathlib` compares when sorting `Path` values. -/
def sortKey (p : FPath) : String := String.intercalate "/" p

/-- Insertion into a list sorted by `sortKey` (model of Python `sorted`). -/
def insertSorted (x : FPath) : List FPath → List FPath
  | [] => [x]
  | y :: ys => if strLeB (sortKey x) (sortKey y) then x :: y :: ys else y :: insertSorted x ys

/-- Python `sorted` on paths. -/
def sortPaths (l : List FPath) : List FPath := l.foldr insertSorted []

/-- `scan_specs` from the source: for every directory named `specs` strictly below
the (already resolved) workspace root, keep each child that is a directory and
whose `.ralph` entry exists (`(spec_dir / ".ralph").exists()`), then sort. -/
def scan_specs (fs : FS) (ws : FPath) : List FPath :=
  sortPaths
    (((rglobMatches fs ws "specs").filter (fun e => decide (fs.IsDir e))).flatMap
      (fun e =>
        (fs.childPaths e).filter
          (fun c => decide (fs.IsDir c) && decide (fs.ExistsP (c ++ [".ralph"])))))

/-- Whether the parsed status field equals the string `blocked` (a `.get` without
default, compared against a string literal in the source). -/
def isBlocked (fields : List (String × JVal)) : Bool :=
  match objGet fields "status" with
  | some (JVal.str s) => s == "blocked"
  | _ => false

/-- The Ralph-progress block of `format_report`: skipped when the parsed value is
`None` or falsy; `AttributeError` when it is truthy but not a dict; `TypeError`
surfaces from `len` on a field without a length. -/
def renderProgress : Option JVal → Except String (List String)
  | none => Except.ok []
  | some v =>
    if v.truthy then
      match v with
      | JVal.obj fields => do
        let completed ← pyLen (objGetD fields "completed_tasks" (JVal.arr []))
        let failedLines ←
          match objGet fields "failed_tasks" with
          | some fv =>
            if fv.truthy then do
              let n ← pyLen fv
              Except.ok ["- Failed Tasks: " ++ toString n]
            else Except.ok []
          | none => Except.ok []
        Except.ok
          (["\n**Ralph Progress:**",
            "- Status: `" ++ pyStr (objGetD fields "status" (JVal.str "unknown")) ++ "`",
            "- Current Task: `" ++ pyStr (objGetD fields "current_task" (JVal.str "none")) ++ "`",
            "- Completed: " ++ toString completed ++ " tasks"]
           ++ (if isBlocked fields then
                ["- 🚫 BLOCKED: " ++ pyStr (objGetD fields "blocked_reason" (JVal.str "unknown"))]
               else [])
           ++ failedLines
           ++ ["- Last Updated: `" ++ pyStr (objGetD fields "last_updated" (JVal.str "never")) ++ "`"])
      | _ => Except.error "AttributeError: object has no attribute get"
    else Except.ok []

/-- The session-log block: only in verbose mode, only when non-empty; the last 5 of
the (already tail-limited) lines, right-stripped and indented. -/
def sessionBlock (env : Env) (verbose : Bool) (d : FPath) : List String :=
  let sl := get_session_log env d
  if !sl.isEmpty && verbose then
    "\n**Recent Session Activity:**" :: (lastN 5 sl).map (fun s => "  " ++ pyRStrip s)
  else []

/-- The git block: rendered only when `git_info` is non-empty; branch line when the
branch string is non-empty; commits header whenever the (never empty) split list is
non-empty, with up to 3 non-blank entries; uncommitted-changes block when the short
status is non-empty. -/
def renderGit : Option GitData → List String
  | none => []
  | some g =>
    "\n**Git Status:**" ::
      ((if g.branch != "" then ["- Branch: `" ++ g.branch ++ "`"] else [])
       ++ (if !g.recent_commits.isEmpty then
             "- Recent Commits:" ::
               ((g.recent_commits.take 3).filterMap
                 (fun c => if pyStrip c != "" then some ("  - " ++ pyRStrip c) else none))
           else [])
       ++ (if g.status != "" then
             ["- Uncommitted Changes:\n```\n" ++ g.status ++ "\n```"]
           else []))

/-- The disk-usage block: only in verbose mode, only when non-empty. -/
def resourceBlock (verbose : Bool) (res : List (String × String)) : List String :=
  if !res.isEmpty && verbose then
    "\n**Disk Usage:**" :: res.map (fun p => "- " ++ p.1 ++ ": " ++ p.2)
  else []

/-- One per-spec subsection of `format_report`: the `###` heading built from the
last three path components (`spec_dir.relative_to(spec_dir.parent.parent.parent)`),
then the progress, session, git and resource blocks in source order. The trace
lists the commands run (git queries, then `du` calls). -/
def specSection (env : Env) (verbose : Bool) (d : FPath) :
    Except String (List String × List Cmd) := do
  let pLines ← renderProgress (get_ralph_status env d)
  let r ← get_resource_usage env d
  Except.ok
    (("\n### " ++ String.intercalate "/" (d.drop (d.length - 3)))
       :: (pLines
           ++ sessionBlock env verbose d
           ++ renderGit (get_git_info env d).1
           ++ resourceBlock verbose r.1),
     (get_git_info env d).2 ++ r.2)

/-- The `for spec_dir in specs` loop of `format_report`. -/
def specSections (env : Env) (verbose : Bool) :
    List FPath → Except String (List String × List Cmd)
  | [] => Except.ok ([], [])
  | d :: ds => do
    let s ← specSection env verbose d
    let rest ← specSections env verbose ds
    Except.ok (s.1 ++ rest.1, s.2 ++ rest.2)

/-- The fixed report header: title, generation time, host, Python version. -/
def headerLines (env : Env) : List String :=
  ["# Ralph Workspace Spec Checkup",
   "\n**Generated:** " ++ env.now,
   "**Host:** " ++ env.host,
   "**Python:** " ++ env.pyVersion]

/-- The verbose workspace-wide diagnostics section: the Docker probe, then the
system-dependency probe. -/
def diagLines (env : Env) : List String × List Cmd :=
  let docker := check_docker_status env
  let dep := check_system_deps env
  (["\n## System Diagnostics",
    "\n**Docker Status:**",
    "```\n" ++ docker.1 ++ "\n```",
    "\n**System Dependencies:**",
    "- timeout: " ++ (if (dep.1).available then "✅ Available" else "❌ Missing")]
   ++ (if (dep.1).path != "" then ["  FPath: `" ++ (dep.1).path ++ "`"] else []),
   docker.2 ++ dep.2)

/-- `format_report` from the source, at the granularity of the `lines` list it
joins: header; early return with the warning line when no specs were discovered;
otherwise the count header, one subsection per spec, and (verbose only) the
workspace diagnostics. The second component is the trace of commands executed. -/
def format_report (env : Env) (specs : List FPath) (verbose : Bool) :
    Except String (List String × List Cmd) :=
  if specs.isEmpty then
    Except.ok (headerLines env ++ ["\n⚠️ **No Ralph specs found in workspace**"], [])
  else do
    let s ← specSections env verbose specs
    let diag := if verbose then diagLines env else ([], [])
    Except.ok
      (headerLines env
        ++ ["\n## Found " ++ toString specs.length ++ " Ralph Spec(s)"]
        ++ s.1 ++ diag.1,
       s.2 ++ diag.2)

/-- The final report document: `"\n".join(lines)`. -/
def format_report_str (env : Env) (specs : List FPath) (verbose : Bool) :
    Except String String :=
  (format_report env specs verbose).map (fun r => String.intercalate "\n" r.1)

/-- Recognizer for the Docker container-listing command in a trace. -/
def isDockerPs : Cmd → Bool
  | Cmd.dockerPs => true
  | _ => false

/-- Recognizer for the `which timeout` command in a trace. -/
def isWhichTimeout : Cmd → Bool
  | Cmd.whichTimeout => true
  | _ => false

/-- The progress object of the blocked-spec scenario. -/
def progBlocked : JVal :=
  JVal.obj [("status", JVal.str "blocked"), ("current_task", JVal.str "t3"),
    ("completed_tasks", JVal.arr [JVal.str "t1", JVal.str "t2"]),
    ("blocked_reason", JVal.str "awaiting approval"),
    ("last_updated", JVal.str "2024-01-01T00:00:00Z")]

/-- Progress-file map of the blocked-spec scenario: only one spec has a progress
file, and there is no session log anywhere. -/
def fileJson7 (p : FPath) : Option (Option JVal) :=
  if p = ["ws", "specs", "s1", ".ralph", "progress.json"] then some (some progBlocked)
  else none

/-- Environment of the blocked-spec scenario (no git repository, no services
directory, docker and `which` produce empty output). -/
def env7 : Env :=
  { fs := { entries := [] }
    run := fun _ => CmdOutcome.completed 0 ""
    fileJson := fileJson7
    fileLines := fun _ => none
    now := "NOW"
    host := "H"
    pyVersion := "3.12.0" }

/-- The full rendered line list of the blocked-spec scenario. -/
def lines7 : List String :=
  ["# Ralph Workspace Spec Checkup", "\n**Generated:** NOW", "**Host:** H",
   "**Python:** 3.12.0", "\n## Found 1 Ralph Spec(s)", "\n### ws/specs/s1",
   "\n**Ralph Progress:**", "- Status: `blocked`", "- Current Task: `t3`",
   "- Completed: 2 tasks", "- 🚫 BLOCKED: awaiting approval",
   "- Last Updated: `2024-01-01T00:00:00Z`", "\n## System Diagnostics",
   "\n**Docker Status:**", "```\nDocker not available or not running\n```",
   "\n**System Dependencies:**", "- timeout: ❌ Missing"]

/-- Environment whose docker listing is a genuine non-empty output that begins with
the character `[`. -/
def env9 : Env :=
  { fs := { entries := [] }
    run := fun c =>
      match c with
      | Cmd.dockerPs => CmdOutcome.completed 0 "[\"web\", \"db\"]"
      | _ => CmdOutcome.completed 0 ""
    fileJson := fun _ => none
    fileLines := fun _ => none
    now := "NOW"
    host := "H"
    pyVersion := "3.12.0" }

/-- Filesystem of the du-crash scenario: two valid specs and a sibling `services`
directory with one service owning a `node_modules` folder. -/
def fs3 : FS :=
  { entries :=
      [(["ws"], EntryKind.dir), (["ws", "specs"], EntryKind.dir),
       (["ws", "specs", "a"], EntryKind.dir),
       (["ws", "specs", "a", ".ralph"], EntryKind.dir),
       (["ws", "specs", "b"], EntryKind.dir),
       (["ws", "specs", "b", ".ralph"], EntryKind.dir),
       (["ws", "services"], EntryKind.dir),
       (["ws", "services", "svc"], EntryKind.dir),
       (["ws", "services", "svc", "node_modules"], EntryKind.dir)] }

/-- Environment where the `du -sh` command completes with empty stdout (e.g. `du`
itself fails, writing only to stderr, exit status non-zero). -/
def env3 : Env :=
  { fs := fs3
    run := fun c =>
      match c with
      | Cmd.du _ => CmdOutcome.completed 1 ""
      | _ => CmdOutcome.completed 0 ""
    fileJson := fun _ => none
    fileLines := fun _ => none
    now := "NOW"
    host := "H"
    pyVersion := "3.12.0" }

/-- The same environment with a well-behaved `du`. -/
def env3ok : Env :=
  { env3 with
    run := fun c =>
      match c with
      | Cmd.du _ => CmdOutcome.completed 0 "42M\t/x"
      | _ => CmdOutcome.completed 0 "" }

/-- Environment whose single spec has a progress file holding the empty JSON
object. -/
def env10 : Env :=
  { fs := { entries := [] }
    run := fun _ => CmdOutcome.completed 0 ""
    fileJson := fun p =>
      if p = ["w", "specs", "s", ".ralph", "progress.json"] then some (some (JVal.obj []))
      else none
    fileLines := fun _ => none
    now := "NOW"
    host := "H"
    pyVersion := "3.12.0" }

/-- The rendered lines for the empty-object progress file. -/
def lines10 : List String :=
  ["# Ralph Workspace Spec Checkup", "\n**Generated:** NOW", "**Host:** H",
   "**Python:** 3.12.0", "\n## Found 1 Ralph Spec(s)", "\n### w/specs/s"]

/-- Recognizer: the parsed progress state is present and is the empty JSON object. -/
def isEmptyObj : Option JVal → Bool
  | some (JVal.obj []) => true
  | _ => false

/-- Environment of the zero-spec verbose invocation. -/
def env6c : Env :=
  { fs := { entries := [] }
    run := fun _ => CmdOutcome.completed 0 ""
    fileJson := fun _ => none
    fileLines := fun _ => none
    now := "NOW"
    host := "H"
    pyVersion := "3.12.0" }

/-- A minimal environment; probe data: no files, empty filesystem, all commands
complete with empty output. -/
def env4a : Env :=
  { fs := { entries := [] }
    run := fun _ => CmdOutcome.completed 0 ""
    fileJson := fun _ => none
    fileLines := fun _ => none
    now := "2024-01-01 00:00:00"
    host := "h"
    pyVersion := "3.12.0" }

/-- The same environment invoked at a different wall-clock instant: every probe
input is identical, only `datetime.now()` differs. -/
def env4b : Env := { env4a with now := "2024-01-02 11:11:11" }

/-- An environment whose filesystem has the spec directory but no `.git` marker
anywhere on the ancestor chain. -/
def env8w : Env :=
  { fs := { entries := [(["a"], EntryKind.dir), (["a", "b"], EntryKind.dir)] }
    run := fun _ => CmdOutcome.completed 0 ""
    fileJson := fun _ => none
    fileLines := fun _ => none
    now := "NOW"
    host := "H"
    pyVersion := "3.12.0" }

/-- The claim-side characterization of a discovered spec, drawn from the wording
of the spec with the marker condition amended to the `.exists()` check of the code: an
immediate child of a directory named `specs` strictly below the workspace root,
itself a directory, containing an entry (directory or plain file) named `.ralph`. -/
def IsDiscoveredSpec (fs : FS) (ws p : FPath) : Prop :=
  p ≠ [] ∧ fs.IsDir p ∧ fs.ExistsP (p ++ [".ralph"]) ∧ fs.IsDir p.dropLast ∧
  p.dropLast.getLast? = some "specs" ∧ ws <+: p.dropLast ∧ p.dropLast ≠ ws

/-- The path order used by the sort. -/
def PathLe (a b : FPath) : Prop := strLeB (sortKey a) (sortKey b) = true

instance (a b : FPath) : Decidable (PathLe a b) :=
  inferInstanceAs (Decidable (_ = true))

/-- Filesystem for the C2 witness: one qualifying spec (directory marker), one
non-qualifying sibling without a marker. -/
def fs2w : FS :=
  { entries :=
      [(["ws"], EntryKind.dir), (["ws", "specs"], EntryKind.dir),
       (["ws", "specs", "a"], EntryKind.dir),
       (["ws", "specs", "a", ".ralph"], EntryKind.dir),
       (["ws", "specs", "b"], EntryKind.dir)] }

/-- The six field names the progress renderer reads. -/
def progressKeys : List String :=
  ["status", "current_task", "completed_tasks", "blocked_reason", "failed_tasks",
   "last_updated"]

/-- Environment of the C5 counterexample: the progress file of the spec is absent, and
the sibling `services` tree makes the resource probe run a `du` that returns
empty output. -/
def env5c : Env :=
  { fs :=
      { entries :=
          [(["ws"], EntryKind.dir), (["ws", "specs"], EntryKind.dir),
           (["ws", "specs", "a"], EntryKind.dir),
           (["ws", "specs", "a", ".ralph"], EntryKind.dir),
           (["ws", "services"], EntryKind.dir),
           (["ws", "services", "svc"], EntryKind.dir),
           (["ws", "services", "svc", "node_modules"], EntryKind.dir)] }
    run := fun c =>
      match c with
      | Cmd.du _ => CmdOutcome.completed 1 ""
      | _ => CmdOutcome.completed 0 ""
    fileJson := fun _ => none
    fileLines := fun _ => none
    now := "NOW"
    host := "H"
    pyVersion := "3.12.0" }

/-- Environment of the C5 witness: absent progress file, a git repository above
the spec, no services directory. -/
def env5w : Env :=
  { fs :=
      { entries :=
          [(["ws"], EntryKind.dir), (["ws", ".git"], EntryKind.dir),
           (["ws", "specs"], EntryKind.dir), (["ws", "specs", "a"], EntryKind.dir),
           (["ws", "specs", "a", ".ralph"], EntryKind.dir)] }
    run := fun c =>
      match c with
      | Cmd.gitBranch _ => CmdOutcome.completed 0 "main"
      | Cmd.gitLog _ => CmdOutcome.completed 0 "abc123 fix"
      | Cmd.gitStatus _ => CmdOutcome.completed 0 " M f.txt"
      | _ => CmdOutcome.completed 0 ""
    fileJson := fun _ => none
    fileLines := fun _ => none
    now := "NOW"
    host := "H"
    pyVersion := "3.12.0" }

/-- Environment of the C6 witness: one spec, docker listing available. -/
def env6w : Env :=
  { fs := { entries := [] }
    run := fun c =>
      match c with
      | Cmd.dockerPs => CmdOutcome.completed 0 "ctr Up 2d"
      | _ => CmdOutcome.completed 0 ""
    fileJson := fun _ => none
    fileLines := fun _ => none
    now := "NOW"
    host := "H"
    pyVersion := "3.12.0" }

/-- The rendered lines of the C6 witness run. -/
def lines6w : List String :=
  ["# Ralph Workspace Spec Checkup", "\n**Generated:** NOW", "**Host:** H",
   "**Python:** 3.12.0", "\n## Found 1 Ralph Spec(s)", "\n### w/specs/a",
   "\n## System Diagnostics", "\n**Docker Status:**", "```\nctr Up 2d\n```",
   "\n**System Dependencies:**", "- timeout: ❌ Missing"]

/-- C7: for a workspace with exactly one spec whose progress file holds the blocked
object and no session-log file, the rendered subsection shows status `blocked`,
current task `t3`, completed count 2, a blocked-reason line containing "awaiting
approval", and no session-log block. -/
theorem C7_blocked_scenario :
    format_report env7 [["ws", "specs", "s1"]] true =
      Except.ok (lines7, [Cmd.dockerPs, Cmd.whichTimeout, Cmd.whichTimeout]) ∧
    "- Status: `blocked`" ∈ lines7 ∧
    "- Current Task: `t3`" ∈ lines7 ∧
    "- Completed: 2 tasks" ∈ lines7 ∧
    "- 🚫 BLOCKED: awaiting approval" ∈ lines7 ∧
    "\n**Recent Session Activity:**" ∉ lines7 :=
  ⟨by decide, by decide, by decide, by decide, by decide, by decide⟩

/-- C1 counterexample: the claim says a non-zero exit status yields a sentinel and
never the plain command output; but `subprocess.run` is called without `check`,
so a non-zero exit completes normally and `run_cmd` returns the trimmed stdout. -/
theorem C1_counterexample :
    ¬ (∀ (ec : Int) (out : String), ec ≠ 0 →
        runCmd (CmdOutcome.completed ec out) ≠ pyStrip out) :=
  fun hall => hall 1 "oops" (by decide) rfl

/-- C1 amended: `run_cmd` never raises; on any normal completion — including a
non-zero exit status such as a missing binary under `shell=True` — it returns the
trimmed stdout; on timeout it returns the sentinel `"[timeout]"`; on a caught
exception it returns `"[error: <description>]"`, which is never the timeout
sentinel. -/
theorem C1_amended_thm :
    (∀ (ec : Int) (out : String), runCmd (CmdOutcome.completed ec out) = pyStrip out) ∧
    runCmd CmdOutcome.timedOut = "[timeout]" ∧
    (∀ msg, runCmd (CmdOutcome.excep msg) = "[error: " ++ msg ++ "]") ∧
    (∀ msg, runCmd (CmdOutcome.excep msg) ≠ "[timeout]") := by
  refine ⟨fun _ _ => rfl, rfl, fun _ => rfl, fun msg h => ?_⟩
  have hd := congrArg String.data h
  have he : runCmd (CmdOutcome.excep msg) = "[error: " ++ msg ++ "]" := rfl
  rw [he, String.data_append, String.data_append] at hd
  have h8 : "[error: ".data = ['[', 'e', 'r', 'r', 'o', 'r', ':', ' '] := rfl
  have h9 : "[timeout]".data = ['[', 't', 'i', 'm', 'e', 'o', 'u', 't', ']'] := rfl
  rw [h8, h9] at hd
  simp at hd

/-- C1 witness: the amended theorem applied at concrete outcomes. -/
theorem C1_amended_witness :
    runCmd (CmdOutcome.completed 7 "  ok  ") = pyStrip "  ok  " ∧
    runCmd (CmdOutcome.excep "boom") ≠ "[timeout]" :=
  ⟨C1_amended_thm.1 7 "  ok  ", C1_amended_thm.2.2.2 "boom"⟩

/-- C9: the Docker probe records the placeholder exactly when the command
returns a string that is empty or begins with `[`, and records the output verbatim
otherwise; consequently a genuine container listing beginning with `[` is also
reported as unavailable (second conjunct). -/
theorem C9_docker_condition :
    (∀ env : Env,
      (check_docker_status env).1 =
        if runCmd (env.run Cmd.dockerPs) = "" ∨
            pyStartsWith (runCmd (env.run Cmd.dockerPs)) "[" = true then
          "Docker not available or not running"
        else runCmd (env.run Cmd.dockerPs)) ∧
    (check_docker_status env9).1 = "Docker not available or not running" := by
  refine ⟨fun env => ?_, by decide⟩
  by_cases h1 : runCmd (env.run Cmd.dockerPs) = ""
  · simp [check_docker_status, h1]
  · by_cases h2 : pyStartsWith (runCmd (env.run Cmd.dockerPs)) "[" = true
    · simp [check_docker_status, h1, h2]
    · simp [check_docker_status, h1, h2]

/-- C9 witness: the general conjunct applied at the concrete environment. -/
theorem C9_witness :
    (check_docker_status env9).1 =
      if runCmd (env9.run Cmd.dockerPs) = "" ∨
          pyStartsWith (runCmd (env9.run Cmd.dockerPs)) "[" = true then
        "Docker not available or not running"
      else runCmd (env9.run Cmd.dockerPs) :=
  C9_docker_condition.1 env9

/-- C3: when `du -sh` yields empty output for the resource probe of one spec,
`"".split()[0]` raises `IndexError` and the whole report generation aborts — the
record of the other spec is lost; with a well-behaved `du` on the identical
filesystem the subsection of the other spec is present. -/
theorem C3_crash_eval :
    format_report env3 [["ws", "specs", "a"], ["ws", "specs", "b"]] false =
      Except.error "IndexError: list index out of range" ∧
    (format_report env3ok [["ws", "specs", "a"], ["ws", "specs", "b"]] false).map
        (fun r => decide ("\n### ws/specs/b" ∈ r.1)) = Except.ok true :=
  ⟨rfl, by decide⟩

/-- C10 counterexample: the empty JSON object parses, omits every field, yet the
renderer emits no progress block at all (the empty dict is falsy in Python), so no
default lines are substituted. -/
theorem C10_counterexample :
    format_report env10 [["w", "specs", "s"]] false = Except.ok (lines10, []) ∧
    isEmptyObj (get_ralph_status env10 ["w", "specs", "s"]) = true ∧
    "\n**Ralph Progress:**" ∉ lines10 ∧
    "- Status: `unknown`" ∉ lines10 :=
  ⟨by decide, by decide, by decide, by decide⟩

/-- C6 counterexample: with zero discovered specs and verbose requested, the
renderer returns early after the warning line and neither workspace-wide probe
runs (the command trace is empty), not "exactly once" as claimed. -/
theorem C6_counterexample :
    (format_report env6c [] true).map
        (fun r => (r.2.countP isDockerPs, r.2.countP isWhichTimeout)) =
      Except.ok (0, 0) :=
  by decide

/-- C4 counterexample: two renderer calls on an identical aggregated snapshot
(same spec list, same probe data, same verbose flag) are not byte-identical,
because `format_report` interpolates `datetime.now()` into the header. -/
theorem C4_counterexample :
    env4a.fs = env4b.fs ∧ env4a.run = env4b.run ∧ env4a.fileJson = env4b.fileJson ∧
    env4a.fileLines = env4b.fileLines ∧
    format_report_str env4a [] false ≠ format_report_str env4b [] false :=
  ⟨rfl, rfl, rfl, rfl, by decide⟩

/-- C4 amended: the renderer is deterministic once the ambient header inputs
(generation time, host name, runtime version) are fixed along with the snapshot:
its output is a function of the environment, the spec list and the verbose flag
alone. -/
theorem C4_amended_thm (e1 e2 : Env) (specs : List FPath) (v : Bool)
    (hfs : e1.fs = e2.fs) (hrun : e1.run = e2.run) (hj : e1.fileJson = e2.fileJson)
    (hl : e1.fileLines = e2.fileLines) (hn : e1.now = e2.now) (hh : e1.host = e2.host)
    (hp : e1.pyVersion = e2.pyVersion) :
    format_report_str e1 specs v = format_report_str e2 specs v := by
  cases e1
  cases e2
  cases hfs
  cases hrun
  cases hj
  cases hl
  cases hn
  cases hh
  cases hp
  rfl

/-- C4 witness: the amended determinism theorem applied at a concrete snapshot. -/
theorem C4_amended_witness :
    format_report_str env4a [] false = format_report_str env4a [] false :=
  C4_amended_thm env4a env4a [] false rfl rfl rfl rfl rfl rfl rfl

/-- The ascent on the reversed component list only removes innermost components:
its result is a suffix of its input. -/
theorem findRepoRootRev_suffix (fs : FS) (r : List String) :
    findRepoRootRev fs r <:+ r := by
  induction r with
  | nil => exact List.suffix_refl []
  | cons c rest ih =>
    unfold findRepoRootRev
    by_cases h : fs.ExistsP ((c :: rest).reverse ++ [".git"])
    · rw [if_pos h]
    · rw [if_neg h]
      exact ih.trans (List.suffix_cons c rest)

/-- The stopping point of the `get_git_info` ascent is an ancestor of (a prefix
of) the spec directory. -/
theorem findRepoRoot_ancestor (fs : FS) (d : FPath) : findRepoRoot fs d <+: d := by
  have h := findRepoRootRev_suffix fs d.reverse
  have h2 := List.reverse_prefix.mpr h
  rwa [List.reverse_reverse] at h2

/-- C8: the upward ascent of the version-control probe visits only ancestors of
the spec directory (so it terminates at the filesystem root at the latest), and
when no ancestor — the root included — contains the `.git` marker, `get_git_info`
returns the empty result and runs no command. -/
theorem C8_ascent (env : Env) (d : FPath) :
    findRepoRoot env.fs d <+: d ∧
    ((∀ n ∈ List.range (d.length + 1), ¬ env.fs.ExistsP (d.take n ++ [".git"])) →
      get_git_info env d = (none, [])) := by
  refine ⟨findRepoRoot_ancestor env.fs d, fun h => ?_⟩
  have hpre := findRepoRoot_ancestor env.fs d
  have hlen : (findRepoRoot env.fs d).length ≤ d.length := hpre.length_le
  have heq : findRepoRoot env.fs d = d.take (findRepoRoot env.fs d).length :=
    List.prefix_iff_eq_take.mp hpre
  have hnot := h (findRepoRoot env.fs d).length (List.mem_range.mpr (by omega))
  rw [← heq] at hnot
  unfold get_git_info
  rw [if_neg hnot]

/-- C8 witness: the ascent theorem applied at a concrete directory with no
repository marker. -/
theorem C8_ascent_witness :
    findRepoRoot env8w.fs ["a", "b"] <+: ["a", "b"] ∧
    get_git_info env8w ["a", "b"] = (none, []) :=
  ⟨(C8_ascent env8w ["a", "b"]).1, (C8_ascent env8w ["a", "b"]).2 (by decide)⟩

theorem listLeCh_total (a b : List Char) : listLeCh a b = true ∨ listLeCh b a = true := by
  induction a generalizing b with
  | nil => exact Or.inl rfl
  | cons x xs ih =>
    cases b with
    | nil => exact Or.inr rfl
    | cons y ys =>
      unfold listLeCh
      by_cases h1 : x.toNat < y.toNat
      · left
        rw [if_pos h1]
      · by_cases h2 : y.toNat < x.toNat
        · right
          rw [if_pos h2]
        · rw [if_neg h1, if_neg h2, if_neg h2, if_neg h1]
          exact ih ys

theorem listLeCh_trans {a b c : List Char} (h1 : listLeCh a b = true)
    (h2 : listLeCh b c = true) : listLeCh a c = true := by
  induction a generalizing b c with
  | nil => rfl
  | cons x xs ih =>
    cases b with
    | nil => simp [listLeCh] at h1
    | cons y ys =>
      cases c with
      | nil => simp [listLeCh] at h2
      | cons z zs =>
        unfold listLeCh at h1 h2 ⊢
        split_ifs at h1 h2 ⊢ <;>
          first
            | rfl
            | omega
            | exact ih h1 h2

theorem pathLe_total (a b : FPath) : PathLe a b ∨ PathLe b a :=
  listLeCh_total (sortKey a).data (sortKey b).data

theorem pathLe_trans {a b c : FPath} (h1 : PathLe a b) (h2 : PathLe b c) : PathLe a c :=
  listLeCh_trans h1 h2

theorem insertSorted_perm (x : FPath) (l : List FPath) :
    List.Perm (insertSorted x l) (x :: l) := by
  induction l with
  | nil => exact List.Perm.refl [x]
  | cons y ys ih =>
    unfold insertSorted
    by_cases h : strLeB (sortKey x) (sortKey y) = true
    · rw [if_pos h]
    · rw [if_neg h]
      exact (ih.cons y).trans (List.Perm.swap x y ys)

theorem mem_insertSorted {a x : FPath} {l : List FPath} :
    a ∈ insertSorted x l ↔ a = x ∨ a ∈ l := by
  rw [(insertSorted_perm x l).mem_iff, List.mem_cons]

theorem sorted_insertSorted (x : FPath) {l : List FPath}
    (h : l.Pairwise PathLe) : (insertSorted x l).Pairwise PathLe := by
  induction l with
  | nil => exact List.pairwise_singleton PathLe x
  | cons y ys ih =>
    unfold insertSorted
    rcases List.pairwise_cons.mp h with ⟨hy, hys⟩
    by_cases hc : strLeB (sortKey x) (sortKey y) = true
    · rw [if_pos hc]
      refine List.pairwise_cons.mpr ⟨?_, h⟩
      intro z hz
      rcases List.mem_cons.mp hz with rfl | hz2
      · exact hc
      · exact pathLe_trans hc (hy z hz2)
    · rw [if_neg hc]
      refine List.pairwise_cons.mpr ⟨?_, ih hys⟩
      intro z hz
      rcases mem_insertSorted.mp hz with rfl | hz2
      · rcases pathLe_total z y with hzy | hyz
        · exact absurd hzy hc
        · exact hyz
      · exact hy z hz2

theorem sortPaths_perm (l : List FPath) : List.Perm (sortPaths l) l := by
  induction l with
  | nil => exact List.Perm.refl []
  | cons x xs ih => exact (insertSorted_perm x (sortPaths xs)).trans (ih.cons x)

theorem sorted_sortPaths (l : List FPath) : (sortPaths l).Pairwise PathLe := by
  induction l with
  | nil => exact List.Pairwise.nil
  | cons x xs ih => exact sorted_insertSorted x ih

theorem mem_sortPaths {a : FPath} {l : List FPath} : a ∈ sortPaths l ↔ a ∈ l :=
  (sortPaths_perm l).mem_iff

theorem FS.IsDir.mem_paths {fs : FS} {p : FPath} (h : fs.IsDir p) : p ∈ fs.paths :=
  List.mem_map_of_mem Prod.fst h

theorem mem_rglobMatches {fs : FS} {ws p : FPath} {name : String} :
    p ∈ rglobMatches fs ws name ↔
      p ∈ fs.paths ∧ ws <+: p ∧ p ≠ ws ∧ p.getLast? = some name := by
  simp [rglobMatches, List.mem_filter, List.isPrefixOf_iff_prefix, and_assoc]

theorem mem_childPaths {fs : FS} {e q : FPath} :
    q ∈ fs.childPaths e ↔ q ∈ fs.paths ∧ q.dropLast = e ∧ q ≠ [] := by
  simp [FS.childPaths, List.mem_filter, and_assoc]

/-- Membership characterization of `scan_specs`: exactly the directories that are
immediate children of a `specs` directory strictly below the workspace, are
directories themselves, and whose `.ralph` entry exists. -/
theorem mem_scan_specs {fs : FS} {ws p : FPath} :
    p ∈ scan_specs fs ws ↔ IsDiscoveredSpec fs ws p := by
  unfold scan_specs IsDiscoveredSpec
  rw [mem_sortPaths, List.mem_flatMap]
  constructor
  · rintro ⟨e, he, hp⟩
    rcases List.mem_filter.mp he with ⟨he1, he2⟩
    rcases mem_rglobMatches.mp he1 with ⟨hepaths, hws, hne, hlast⟩
    rcases List.mem_filter.mp hp with ⟨hp1, hp2⟩
    rcases mem_childPaths.mp hp1 with ⟨hppaths, hdrop, hpne⟩
    rw [Bool.and_eq_true, decide_eq_true_iff, decide_eq_true_iff] at hp2
    rw [decide_eq_true_iff] at he2
    subst hdrop
    exact ⟨hpne, hp2.1, hp2.2, he2, hlast, hws, hne⟩
  · rintro ⟨hpne, hdir, hralph, hdirparent, hlast, hws, hnews⟩
    refine ⟨p.dropLast, ?_, ?_⟩
    · exact List.mem_filter.mpr
        ⟨mem_rglobMatches.mpr ⟨hdirparent.mem_paths, hws, hnews, hlast⟩,
         decide_eq_true hdirparent⟩
    · exact List.mem_filter.mpr
        ⟨mem_childPaths.mpr ⟨hdir.mem_paths, rfl, hpne⟩,
         by rw [Bool.and_eq_true, decide_eq_true_iff, decide_eq_true_iff]
            exact ⟨hdir, hralph⟩⟩

theorem nodup_scan_specs {fs : FS} (ws : FPath) (h : fs.paths.Nodup) :
    (scan_specs fs ws).Nodup := by
  unfold scan_specs
  rw [(sortPaths_perm _).nodup_iff]
  rw [List.nodup_flatMap]
  constructor
  · intro e _
    exact (h.filter _).filter _
  · have houter : ((rglobMatches fs ws "specs").filter
        (fun e => decide (fs.IsDir e))).Nodup := (h.filter _).filter _
    refine houter.imp ?_
    intro e1 e2 hne x hx1 hx2
    rcases mem_childPaths.mp (List.mem_filter.mp hx1).1 with ⟨_, hd1, _⟩
    rcases mem_childPaths.mp (List.mem_filter.mp hx2).1 with ⟨_, hd2, _⟩
    exact hne (hd1 ▸ hd2)

/-- C2 counterexample: the claim requires the `.ralph` marker to be a
subdirectory, but the code only tests `.exists()`, so a spec whose `.ralph` is a
plain file is still discovered. -/
theorem C2_counterexample :
    ¬ (∀ (fs : FS) (ws p : FPath), p ∈ scan_specs fs ws → fs.IsDir (p ++ [".ralph"])) :=
  fun hall =>
    absurd
      (hall
        { entries :=
            [(["ws"], EntryKind.dir), (["ws", "specs"], EntryKind.dir),
             (["ws", "specs", "a"], EntryKind.dir),
             (["ws", "specs", "a", ".ralph"], EntryKind.file)] }
        ["ws"] ["ws", "specs", "a"] (by decide))
      (by decide)

/-- C2 amended: on a duplicate-free filesystem snapshot, `scan_specs` returns
exactly the directories that are immediate children of a `specs` directory
strictly below the workspace root and whose `.ralph` entry exists (directory or
plain file) — no more, no fewer, without duplicates — sorted by path string. -/
theorem C2_amended_thm (fs : FS) (ws : FPath) (h : fs.paths.Nodup) :
    (∀ p, p ∈ scan_specs fs ws ↔ IsDiscoveredSpec fs ws p) ∧
    (scan_specs fs ws).Pairwise PathLe ∧ (scan_specs fs ws).Nodup :=
  ⟨fun _ => mem_scan_specs, sorted_sortPaths _, nodup_scan_specs ws h⟩

/-- C2 witness: the amended theorem applied at a concrete workspace. -/
theorem C2_amended_witness :
    fs2w.paths.Nodup ∧
    ((∀ p, p ∈ scan_specs fs2w ["ws"] ↔ IsDiscoveredSpec fs2w ["ws"] p) ∧
     (scan_specs fs2w ["ws"]).Pairwise PathLe ∧ (scan_specs fs2w ["ws"]).Nodup) :=
  ⟨by decide, C2_amended_thm fs2w ["ws"] (by decide)⟩

theorem objGet_eq_none (fields : List (String × JVal)) (k : String)
    (h : ∀ kv ∈ fields, kv.1 ≠ k) : objGet fields k = none := by
  induction fields with
  | nil => rfl
  | cons kv rest ih =>
    unfold objGet
    rw [if_neg, ih]
    · intro kv2 h2
      exact h kv2 (List.mem_cons_of_mem kv h2)
    · simp only [beq_iff_eq]
      exact h kv (List.mem_cons_self kv rest)

/-- C10 amended: for every progress state that parses as a NON-EMPTY JSON object
none of whose keys is an expected field, the renderer substitutes the fixed
defaults: status `unknown`, current task `none`, completed count 0, last-updated
`never`; no blocked-reason line (status is not "blocked") and no failed-task line
(`failed_tasks` is absent) appear. The empty object is excluded: it is falsy and
renders no block at all. -/
theorem C10_amended_thm (fields : List (String × JVal)) (hne : fields ≠ [])
    (hdisj : ∀ kv ∈ fields, kv.1 ∉ progressKeys) :
    renderProgress (some (JVal.obj fields)) =
      Except.ok
        ["\n**Ralph Progress:**", "- Status: `unknown`", "- Current Task: `none`",
         "- Completed: 0 tasks", "- Last Updated: `never`"] := by
  have hk : ∀ k ∈ progressKeys, objGet fields k = none := by
    intro k hkmem
    refine objGet_eq_none fields k ?_
    intro kv hkv hcontra
    exact hdisj kv hkv (hcontra ▸ hkmem)
  have h1 := hk "status" (by decide)
  have h2 := hk "current_task" (by decide)
  have h3 := hk "completed_tasks" (by decide)
  have h4 := hk "failed_tasks" (by decide)
  have h5 := hk "last_updated" (by decide)
  cases fields with
  | nil => exact absurd rfl hne
  | cons a l =>
    simp only [renderProgress, JVal.truthy, List.isEmpty_cons, Bool.not_false,
      if_true, objGetD, h1, h2, h3, h4, h5, Option.getD_none, pyLen, isBlocked,
      pyStr, Bool.false_eq_true, if_false]
    rfl

/-- C10 witness: the amended theorem applied at a concrete one-field object. -/
theorem C10_amended_witness :
    renderProgress (some (JVal.obj [("note", JVal.null)])) =
      Except.ok
        ["\n**Ralph Progress:**", "- Status: `unknown`", "- Current Task: `none`",
         "- Completed: 0 tasks", "- Last Updated: `never`"] :=
  C10_amended_thm [("note", JVal.null)] (List.cons_ne_nil _ _) (by decide)

theorem exists_ok_of_isOk {ε α : Type} {x : Except ε α} (h : x.isOk = true) :
    ∃ a, x = Except.ok a := by
  cases x with
  | ok a => exact ⟨a, rfl⟩
  | error e => simp [Except.isOk, Except.toBool] at h

/-- Successful evaluation of one per-spec subsection, spelled out. -/
theorem specSection_eq_ok {env : Env} {v : Bool} {d : FPath} {pl : List String}
    {res : List (String × String)} {rt : List Cmd}
    (hp : renderProgress (get_ralph_status env d) = Except.ok pl)
    (hr : get_resource_usage env d = Except.ok (res, rt)) :
    specSection env v d =
      Except.ok
        (("\n### " ++ String.intercalate "/" (d.drop (d.length - 3)))
           :: (pl ++ sessionBlock env v d ++ renderGit (get_git_info env d).1
               ++ resourceBlock v res),
         (get_git_info env d).2 ++ rt) := by
  unfold specSection
  rw [hp, hr]
  rfl

/-- When the fallible probes of every listed spec succeed, the spec loop succeeds
and the lines of each per-spec subsection all appear in the collected lines. -/
theorem specSections_eq_ok {env : Env} {v : Bool} :
    ∀ {specs : List FPath},
      (∀ d ∈ specs, (renderProgress (get_ralph_status env d)).isOk = true) →
      (∀ d ∈ specs, (get_resource_usage env d).isOk = true) →
      ∃ L T, specSections env v specs = Except.ok (L, T) ∧
        ∀ d ∈ specs, ∀ Ld Td, specSection env v d = Except.ok (Ld, Td) →
          ∀ x ∈ Ld, x ∈ L := by
  intro specs
  induction specs with
  | nil => exact fun _ _ => ⟨[], [], rfl, by simp⟩
  | cons d ds ih =>
    intro h1 h2
    obtain ⟨pl, hp⟩ := exists_ok_of_isOk (h1 d (List.mem_cons_self d ds))
    obtain ⟨⟨res, rt⟩, hr⟩ := exists_ok_of_isOk (h2 d (List.mem_cons_self d ds))
    obtain ⟨L2, T2, hs2, hmem2⟩ :=
      ih (fun d' hd' => h1 d' (List.mem_cons_of_mem d hd'))
        (fun d' hd' => h2 d' (List.mem_cons_of_mem d hd'))
    have hsec := specSection_eq_ok (v := v) hp hr
    have hcons : specSections env v (d :: ds) =
        Except.ok
          ((("\n### " ++ String.intercalate "/" (d.drop (d.length - 3)))
              :: (pl ++ sessionBlock env v d ++ renderGit (get_git_info env d).1
                  ++ resourceBlock v res)) ++ L2,
           ((get_git_info env d).2 ++ rt) ++ T2) := by
      unfold specSections
      rw [hsec, hs2]
      rfl
    refine ⟨_, _, hcons, ?_⟩
    intro d' hd' Ld Td hLd x hx
    rcases List.mem_cons.mp hd' with rfl | hd2
    · rw [hsec] at hLd
      have hL : Ld = ("\n### " ++ String.intercalate "/" (d'.drop (d'.length - 3)))
          :: (pl ++ sessionBlock env v d' ++ renderGit (get_git_info env d').1
              ++ resourceBlock v res) := (congrArg Prod.fst (Except.ok.inj hLd)).symm
      exact List.mem_append_left L2 (hL ▸ hx)
    · exact List.mem_append_right _ (hmem2 d' hd2 Ld Td hLd x hx)

/-- C5 amended: whenever the progress file of a spec is absent or fails to load
(`fileJson` is `none` or `some none`), the progress probe returns the absent
result; and provided the crash-capable probes (progress rendering and the
disk-usage probe, see the separate `du` crash bug) complete normally for every
listed spec, the report is produced and still contains that same spec heading,
session-log block, version-control block and resource block. -/
theorem C5_amended_thm (env : Env) (specs : List FPath) (v : Bool) (d : FPath)
    (hd : d ∈ specs)
    (habs : env.fileJson (d ++ [".ralph", "progress.json"]) = none ∨
      env.fileJson (d ++ [".ralph", "progress.json"]) = some none)
    (h1 : ∀ d' ∈ specs, (renderProgress (get_ralph_status env d')).isOk = true)
    (h2 : ∀ d' ∈ specs, (get_resource_usage env d').isOk = true) :
    get_ralph_status env d = none ∧
    ∃ L T res rt, format_report env specs v = Except.ok (L, T) ∧
      get_resource_usage env d = Except.ok (res, rt) ∧
      ("\n### " ++ String.intercalate "/" (d.drop (d.length - 3))) ∈ L ∧
      (∀ x ∈ sessionBlock env v d, x ∈ L) ∧
      (∀ x ∈ renderGit (get_git_info env d).1, x ∈ L) ∧
      (∀ x ∈ resourceBlock v res, x ∈ L) := by
  have hstatus : get_ralph_status env d = none := by
    unfold get_ralph_status
    rcases habs with h | h <;> rw [h]
  refine ⟨hstatus, ?_⟩
  obtain ⟨pl, hp⟩ := exists_ok_of_isOk (h1 d hd)
  obtain ⟨⟨res, rt⟩, hr⟩ := exists_ok_of_isOk (h2 d hd)
  obtain ⟨L0, T0, hs, hmem⟩ := specSections_eq_ok (v := v) h1 h2
  have hne : specs.isEmpty = false := by
    cases specs with
    | nil => exact absurd hd (List.not_mem_nil d)
    | cons a l => rfl
  have hrep : format_report env specs v =
      Except.ok
        (headerLines env
          ++ ["\n## Found " ++ toString specs.length ++ " Ralph Spec(s)"]
          ++ L0 ++ (if v then diagLines env else ([], [])).1,
         T0 ++ (if v then diagLines env else ([], [])).2) := by
    unfold format_report
    rw [hne, hs]
    rfl
  have hsec := specSection_eq_ok (v := v) hp hr
  have hinL0 := hmem d hd _ _ hsec
  have hlift : ∀ x, x ∈ L0 →
      x ∈ headerLines env
        ++ ["\n## Found " ++ toString specs.length ++ " Ralph Spec(s)"]
        ++ L0 ++ (if v then diagLines env else ([], [])).1 := by
    intro x hx
    exact List.mem_append_left _ (List.mem_append_right _ hx)
  refine ⟨_, _, res, rt, hrep, hr, ?_, ?_, ?_, ?_⟩
  · exact hlift _ (hinL0 _ (List.mem_cons_self _ _))
  · intro x hx
    refine hlift _ (hinL0 _ ?_)
    exact List.mem_cons_of_mem _
      (List.mem_append_left _ (List.mem_append_left _ (List.mem_append_right _ hx)))
  · intro x hx
    refine hlift _ (hinL0 _ ?_)
    exact List.mem_cons_of_mem _
      (List.mem_append_left _ (List.mem_append_right _ hx))
  · intro x hx
    refine hlift _ (hinL0 _ ?_)
    exact List.mem_cons_of_mem _ (List.mem_append_right _ hx)

/-- C5 counterexample: the progress probe does return the absent result, but the
rest of the per-spec record is NOT produced — the `IndexError` of the resource probe
aborts the whole report. -/
theorem C5_counterexample :
    get_ralph_status env5c ["ws", "specs", "a"] = none ∧
    format_report env5c [["ws", "specs", "a"]] false =
      Except.error "IndexError: list index out of range" :=
  ⟨by rfl, by decide⟩

/-- C5 witness: the amended theorem applied at a concrete environment with an
absent progress file and a live git repository. -/
theorem C5_amended_witness :
    get_ralph_status env5w ["ws", "specs", "a"] = none ∧
    ∃ L T res rt,
      format_report env5w [["ws", "specs", "a"]] false = Except.ok (L, T) ∧
      get_resource_usage env5w ["ws", "specs", "a"] = Except.ok (res, rt) ∧
      ("\n### " ++ String.intercalate "/"
          ((["ws", "specs", "a"] : FPath).drop
            ((["ws", "specs", "a"] : FPath).length - 3))) ∈ L ∧
      (∀ x ∈ sessionBlock env5w false ["ws", "specs", "a"], x ∈ L) ∧
      (∀ x ∈ renderGit (get_git_info env5w ["ws", "specs", "a"]).1, x ∈ L) ∧
      (∀ x ∈ resourceBlock false res, x ∈ L) :=
  C5_amended_thm env5w [["ws", "specs", "a"]] false ["ws", "specs", "a"]
    (by decide) (Or.inl (by rfl)) (by decide) (by decide)

theorem get_git_info_trace {env : Env} {d : FPath} :
    ∀ c ∈ (get_git_info env d).2, isDockerPs c = false ∧ isWhichTimeout c = false := by
  by_cases h : env.fs.ExistsP (findRepoRoot env.fs d ++ [".git"]) <;>
    simp [get_git_info, h, isDockerPs, isWhichTimeout]

theorem duSize_trace {env : Env} {nm : FPath} {s : String} {t : List Cmd}
    (h : duSize env nm = Except.ok (s, t)) : t = [Cmd.du nm] := by
  unfold duSize at h
  cases hh : (pySplit (runCmd (env.run (Cmd.du nm)))).head? with
  | none =>
    rw [hh] at h
    exact Except.noConfusion h
  | some x =>
    rw [hh] at h
    exact (congrArg Prod.snd (Except.ok.inj h)).symm

theorem resourceLoop_trace {env : Env} :
    ∀ {l : List FPath} {res : List (String × String)} {t : List Cmd},
      resourceLoop env l = Except.ok (res, t) →
      ∀ c ∈ t, isDockerPs c = false ∧ isWhichTimeout c = false := by
  intro l
  induction l with
  | nil =>
    intro res t h c hc
    have ht : t = [] := (congrArg Prod.snd (Except.ok.inj h)).symm
    exact absurd (ht ▸ hc) (List.not_mem_nil c)
  | cons sd rest ih =>
    intro res t h c hc
    by_cases h1 : env.fs.IsDir sd
    · by_cases h2 : env.fs.ExistsP (sd ++ ["node_modules"])
      · cases hds : duSize env (sd ++ ["node_modules"]) with
        | error e =>
          have heq : resourceLoop env (sd :: rest) = Except.error e := by
            unfold resourceLoop
            rw [if_pos h1, if_pos h2, hds]
            rfl
          exact Except.noConfusion (heq.symm.trans h)
        | ok sp =>
          obtain ⟨s1, t1⟩ := sp
          cases hrl : resourceLoop env rest with
          | error e =>
            have heq : resourceLoop env (sd :: rest) = Except.error e := by
              unfold resourceLoop
              rw [if_pos h1, if_pos h2, hds, hrl]
              rfl
            exact Except.noConfusion (heq.symm.trans h)
          | ok rp =>
            obtain ⟨r1, t2⟩ := rp
            have heq : resourceLoop env (sd :: rest) =
                Except.ok ((lastName sd, s1) :: r1, t1 ++ t2) := by
              unfold resourceLoop
              rw [if_pos h1, if_pos h2, hds, hrl]
              rfl
            have hT : t1 ++ t2 = t :=
              congrArg Prod.snd (Except.ok.inj (heq.symm.trans h))
            rcases List.mem_append.mp (hT ▸ hc) with hc1 | hc2
            · rw [duSize_trace hds] at hc1
              rcases List.mem_cons.mp hc1 with rfl | hc1'
              · exact ⟨rfl, rfl⟩
              · exact absurd hc1' (List.not_mem_nil c)
            · exact ih hrl c hc2
      · have heq : resourceLoop env (sd :: rest) = resourceLoop env rest := by
          simp only [resourceLoop]
          rw [if_pos h1, if_neg h2]
        exact ih (heq.symm.trans h) c hc
    · have heq : resourceLoop env (sd :: rest) = resourceLoop env rest := by
        simp only [resourceLoop]
        rw [if_neg h1]
      exact ih (heq.symm.trans h) c hc

theorem get_resource_usage_trace {env : Env} {d : FPath}
    {res : List (String × String)} {t : List Cmd}
    (h : get_resource_usage env d = Except.ok (res, t)) :
    ∀ c ∈ t, isDockerPs c = false ∧ isWhichTimeout c = false := by
  unfold get_resource_usage at h
  by_cases hs : env.fs.ExistsP (d.dropLast.dropLast ++ ["services"])
  · rw [if_pos hs] at h
    exact resourceLoop_trace h
  · rw [if_neg hs] at h
    intro c hc
    have ht : t = [] := (congrArg Prod.snd (Except.ok.inj h)).symm
    exact absurd (ht ▸ hc) (List.not_mem_nil c)

theorem specSection_trace {env : Env} {v : Bool} {d : FPath} {L : List String}
    {T : List Cmd} (h : specSection env v d = Except.ok (L, T)) :
    ∀ c ∈ T, isDockerPs c = false ∧ isWhichTimeout c = false := by
  cases hp : renderProgress (get_ralph_status env d) with
  | error e =>
    have heq : specSection env v d = Except.error e := by
      unfold specSection
      rw [hp]
      rfl
    exact Except.noConfusion (heq.symm.trans h)
  | ok pl =>
    cases hr : get_resource_usage env d with
    | error e =>
      have heq : specSection env v d = Except.error e := by
        unfold specSection
        rw [hp, hr]
        rfl
      exact Except.noConfusion (heq.symm.trans h)
    | ok rp =>
      obtain ⟨res, rt⟩ := rp
      have heq := specSection_eq_ok (v := v) hp hr
      have hT : (get_git_info env d).2 ++ rt = T :=
        congrArg Prod.snd (Except.ok.inj (heq.symm.trans h))
      intro c hc
      rcases List.mem_append.mp (hT ▸ hc) with hc1 | hc2
      · exact get_git_info_trace c hc1
      · exact get_resource_usage_trace hr c hc2

theorem specSections_trace {env : Env} {v : Bool} :
    ∀ {specs : List FPath} {L : List String} {T : List Cmd},
      specSections env v specs = Except.ok (L, T) →
      ∀ c ∈ T, isDockerPs c = false ∧ isWhichTimeout c = false := by
  intro specs
  induction specs with
  | nil =>
    intro L T h c hc
    have ht : T = [] := (congrArg Prod.snd (Except.ok.inj h)).symm
    exact absurd (ht ▸ hc) (List.not_mem_nil c)
  | cons d ds ih =>
    intro L T h c hc
    cases hsec : specSection env v d with
    | error e =>
      have heq : specSections env v (d :: ds) = Except.error e := by
        unfold specSections
        rw [hsec]
        rfl
      exact Except.noConfusion (heq.symm.trans h)
    | ok sp =>
      obtain ⟨L1, T1⟩ := sp
      cases hrest : specSections env v ds with
      | error e =>
        have heq : specSections env v (d :: ds) = Except.error e := by
          unfold specSections
          rw [hsec, hrest]
          rfl
        exact Except.noConfusion (heq.symm.trans h)
      | ok rp =>
        obtain ⟨L2, T2⟩ := rp
        have heq : specSections env v (d :: ds) = Except.ok (L1 ++ L2, T1 ++ T2) := by
          unfold specSections
          rw [hsec, hrest]
          rfl
        have hT : T1 ++ T2 = T :=
          congrArg Prod.snd (Except.ok.inj (heq.symm.trans h))
        rcases List.mem_append.mp (hT ▸ hc) with hc1 | hc2
        · exact specSection_trace hsec c hc1
        · exact ih hrest c hc2

/-- C6 amended: whenever at least one spec was discovered and the verbose report
completes, the docker listing command appears exactly once in the executed-command
trace and the dependency-probe `which timeout` exactly twice (the probe itself
runs once but issues the command twice); with zero specs the renderer returns
early and neither probe runs (see the counterexample). -/
theorem C6_amended_thm (env : Env) (specs : List FPath) (L : List String)
    (T : List Cmd) (hne : specs ≠ [])
    (h : format_report env specs true = Except.ok (L, T)) :
    T.countP isDockerPs = 1 ∧ T.countP isWhichTimeout = 2 := by
  have hiso : specs.isEmpty = false := by
    cases specs with
    | nil => exact absurd rfl hne
    | cons a l => rfl
  cases hs : specSections env true specs with
  | error e =>
    have heq : format_report env specs true = Except.error e := by
      unfold format_report
      rw [hiso, hs]
      rfl
    exact Except.noConfusion (heq.symm.trans h)
  | ok sp =>
    obtain ⟨L0, T0⟩ := sp
    have heq : format_report env specs true =
        Except.ok
          (headerLines env
            ++ ["\n## Found " ++ toString specs.length ++ " Ralph Spec(s)"]
            ++ L0 ++ (diagLines env).1,
           T0 ++ [Cmd.dockerPs, Cmd.whichTimeout, Cmd.whichTimeout]) := by
      unfold format_report
      rw [hiso, hs]
      rfl
    have hT : T0 ++ [Cmd.dockerPs, Cmd.whichTimeout, Cmd.whichTimeout] = T :=
      congrArg Prod.snd (Except.ok.inj (heq.symm.trans h))
    have hclean := specSections_trace hs
    have h0d : T0.countP isDockerPs = 0 :=
      List.countP_eq_zero.mpr (fun c hc => by simp [(hclean c hc).1])
    have h0w : T0.countP isWhichTimeout = 0 :=
      List.countP_eq_zero.mpr (fun c hc => by simp [(hclean c hc).2])
    constructor
    · rw [← hT, List.countP_append, h0d]
      decide
    · rw [← hT, List.countP_append, h0w]
      decide

/-- C6 witness: the amended theorem applied at a concrete verbose run with one
spec; its command trace holds one docker listing and two `which timeout` calls. -/
theorem C6_amended_witness :
    ([Cmd.dockerPs, Cmd.whichTimeout, Cmd.whichTimeout] : List Cmd).countP isDockerPs = 1 ∧
    ([Cmd.dockerPs, Cmd.whichTimeout, Cmd.whichTimeout] : List Cmd).countP isWhichTimeout = 2 :=
  C6_amended_thm env6w [["w", "specs", "a"]] lines6w
    [Cmd.dockerPs, Cmd.whichTimeout, Cmd.whichTimeout]
    (List.cons_ne_nil _ _) (by decide)
